import Mathlib

/-!
Verification of the watchfor poll-retry engine.

This file gives a shallow embedding of the core of the watchfor repository:

* the Matcher (pkg/poller, function Poller.match): literal substring
  containment, optional ASCII case folding, and an abstractly modelled
  regular-expression engine (Go regexp.Match compiles the pattern and then
  matches; the engine itself is the Go standard library, so it is modelled
  as an abstract compile function);
* the Poll Loop (pkg/poller, function Poller.Run): the retry / backoff /
  timeout state machine, embedded as a fuel-indexed recursive function over
  rational time (nanoseconds).  The context deadline is modelled as an
  optional absolute amount of time; the select between the deadline channel
  and the sleep timer takes the deadline branch exactly when the deadline
  falls inside the pending sleep.  The verbose printing of the source is
  pure logging and is not modelled; the probe error returned by a watcher
  is only consumed by that logging, which the embedding mirrors by reading
  only the byte component of a probe;
* the incremental File watcher (pkg/watcher, NewFileWatcher and
  FileWatcher.Check): the filesystem is modelled as a map from file
  identities to contents plus the identity currently bound to the watched
  path; an open handle is the identity it was opened on.  Stat, Seek and
  io.Copy on a valid open handle of this model are total, so the
  operating-system error branches of the source are absent from the model.
-/

namespace Watchfor

/-- Byte strings are lists of byte values. -/
abbrev Bytes := List Nat

/-- ASCII lowercasing of one byte, embedding the effect of bytes.ToLower on
ASCII input (the spec only requires ASCII-safe folding). -/
def toLowerByte (b : Nat) : Nat :=
  if 65 ≤ b ∧ b ≤ 90 then b + 32 else b

/-- bytes.ToLower on a byte string. -/
def toLowerBytes (bs : Bytes) : Bytes := bs.map toLowerByte

/-- Does the byte string start with the given byte sequence?  Helper for
substring containment. -/
def leadEq : Bytes → Bytes → Bool
  | _, [] => true
  | [], _ :: _ => false
  | x :: xs, y :: ys => (x == y) && leadEq xs ys

/-- bytes.Contains b sub: sub occurs contiguously inside b. -/
def bytesContains : Bytes → Bytes → Bool
  | [], sub => leadEq [] sub
  | x :: t, sub => leadEq (x :: t) sub || bytesContains t sub

/-- The abstract regular-expression engine: Go regexp.Match first compiles
the pattern and then runs it on the subject.  Compilation either fails
(invalid pattern, the error case of regexp.Match) or yields a matching
function.  The engine lives in the Go standard library, outside this
repository, so it is a parameter of the embedding. -/
abbrev RegexCompile := Bytes → Option (Bytes → Bool)

/-- The bytes of the inline case-insensitivity directive the source prepends
to the pattern in regex mode when ignoreCase is set. -/
def ciDirective : Bytes := [40, 63, 105, 41]

/-- The Poller structure of pkg/poller: pattern text and the three mode
flags (the watcher is passed separately to Run in this embedding). -/
structure Poller where
  pattern : Bytes
  verbose : Bool
  regex : Bool
  ignoreCase : Bool

/-- Embedding of Poller.match from pkg/poller (named matchOut because match
is a reserved word in Lean): regex mode compiles the (possibly
case-directive-prefixed) pattern and errors when compilation fails;
literal mode is substring containment, optionally after lowering both
operands, and never errors. -/
def Poller.matchOut (compile : RegexCompile) (p : Poller) (output : Bytes) :
    Except Unit Bool :=
  if p.regex then
    let pat := if p.ignoreCase then ciDirective ++ p.pattern else p.pattern
    match compile pat with
    | none => Except.error ()
    | some r => Except.ok (r output)
  else if p.ignoreCase then
    Except.ok (bytesContains (toLowerBytes output) (toLowerBytes p.pattern))
  else
    Except.ok (bytesContains output p.pattern)

/-- The terminal outcome of one run, one constructor per return site of
Poller.Run: Matched for the return after the Pattern-found print,
ExhaustedRetries for the Max-retries return, TimedOut for the ctx.Done
return, FatalError for the matcher-error return. -/
inductive Outcome
  | Matched
  | ExhaustedRetries
  | TimedOut
  | FatalError
deriving DecidableEq, Repr

/-- The boolean Poller.Run actually returns: true exactly on Matched. -/
def Outcome.success : Outcome → Bool
  | .Matched => true
  | _ => false

/-- The observable result of a terminating run: the outcome, the number of
calls made to the state source Check, and the completed backoff waits in
order (in nanoseconds). -/
structure RunResult where
  outcome : Outcome
  checkCalls : Nat
  delays : List ℚ
deriving DecidableEq, Repr

/-- The fixed delay ceiling of Poller.Run: float64(time.Hour) nanoseconds. -/
def maxDelay : ℚ := 3600000000000

/-- Does the context deadline fire during a sleep ending at time t?  This
is the select of Poller.Run between ctx.Done and the sleep timer: the Done
branch is taken exactly when a deadline exists and falls within the
pending sleep. -/
def deadlineHit (deadline : Option ℚ) (t : ℚ) : Bool :=
  match deadline with
  | some d => decide (d ≤ t)
  | none => false

/-- Embedding of the loop body of Poller.Run.  State: remaining fuel (the
source loop has no bound of its own; a run that needs more iterations than
the fuel yields none), the attempt counter of the source (starts at 0),
the index of the next Check call on the probe stream w, and the time spent
sleeping so far.  Each iteration: probe, match (a matcher error returns
false fatally), return success on match, return failure once
maxRetries > 0 and attempt >= maxRetries - 1, otherwise increment attempt,
compute delay = min(interval * backoff ^ attempt, maxDelay) and sleep it,
aborting with TimedOut when the deadline falls within the sleep. -/
def Poller.RunAux (compile : RegexCompile) (p : Poller)
    (w : Nat → Bytes × Option String) (interval : ℚ) (maxRetries : Int)
    (backoff : ℚ) (deadline : Option ℚ) :
    Nat → Nat → Nat → ℚ → Option RunResult
  | 0, _, _, _ => none
  | fuel + 1, attempt, callIdx, elapsed =>
    match p.matchOut compile (w callIdx).1 with
    | Except.error _ => some ⟨.FatalError, 1, []⟩
    | Except.ok true => some ⟨.Matched, 1, []⟩
    | Except.ok false =>
      if maxRetries > 0 ∧ (attempt : Int) ≥ maxRetries - 1 then
        some ⟨.ExhaustedRetries, 1, []⟩
      else
        let delay := min (interval * backoff ^ (attempt + 1)) maxDelay
        let cont :=
          (Poller.RunAux compile p w interval maxRetries backoff deadline
              fuel (attempt + 1) (callIdx + 1) (elapsed + delay)).map
            fun r => ⟨r.outcome, r.checkCalls + 1, delay :: r.delays⟩
        if deadlineHit deadline (elapsed + delay) then some ⟨.TimedOut, 1, []⟩
        else cont

/-- Embedding of Poller.Run: the loop entered with attempt = 0, no calls
made and no time elapsed. -/
def Poller.Run (compile : RegexCompile) (p : Poller)
    (w : Nat → Bytes × Option String) (deadline : Option ℚ) (interval : ℚ)
    (maxRetries : Int) (backoff : ℚ) (fuel : Nat) : Option RunResult :=
  Poller.RunAux compile p w interval maxRetries backoff deadline fuel 0 0 0

/-- The filesystem model for the file watcher: contents per file identity,
and the identity currently bound to the watched path.  Renaming a new file
into the path (log rotation) changes the binding but not the contents the
old identity holds. -/
structure FS where
  files : Nat → Bytes
  pathBinding : Nat

/-- The FileWatcher state of pkg/watcher: the identity the open handle
refers to, and the byte offset of the next read.  The filepath field of
the source is never consulted by Check and is dropped. -/
structure FileWatcher where
  fileId : Nat
  offset : Nat
deriving DecidableEq, Repr

/-- Embedding of NewFileWatcher: open the path (the handle takes the
identity currently bound to it) and seek to end-of-file, so the initial
offset is the current size. -/
def NewFileWatcher (fs : FS) : FileWatcher :=
  ⟨fs.pathBinding, (fs.files fs.pathBinding).length⟩

/-- Embedding of FileWatcher.Check: stat the open handle; when the stored
offset exceeds the current size, reset it to 0 (truncation handling); then
seek to the offset, read through end-of-file, and advance the offset by the
number of bytes read.  The handle, not the path, is read, exactly as in the
source.  Stat, seek and read on a handle of the model are total, so the
error branches of the source (operating-system failures) do not arise;
the Except wrapper records that every path of the model returns without
error. -/
def FileWatcher.Check (fs : FS) (fw : FileWatcher) :
    Except Unit (Bytes × FileWatcher) :=
  let content := fs.files fw.fileId
  let offset := if fw.offset > content.length then 0 else fw.offset
  let out := content.drop offset
  Except.ok (out, ⟨fw.fileId, offset + out.length⟩)

/-! ## Theorems -/

/-- C6: on a readable file with content c, the watcher constructed by
NewFileWatcher probes empty with no error (pre-existing content skipped);
after exactly k bytes a are appended the next probe returns exactly a, and
a further probe with nothing appended returns empty again with no error. -/
theorem watchfor_c6 (c a : Bytes) :
    FileWatcher.Check ⟨fun _ => c, 0⟩ (NewFileWatcher ⟨fun _ => c, 0⟩)
      = Except.ok ([], NewFileWatcher ⟨fun _ => c, 0⟩) ∧
    FileWatcher.Check ⟨fun _ => c ++ a, 0⟩ (NewFileWatcher ⟨fun _ => c, 0⟩)
      = Except.ok (a, ⟨0, c.length + a.length⟩) ∧
    FileWatcher.Check ⟨fun _ => c ++ a, 0⟩ ⟨0, c.length + a.length⟩
      = Except.ok ([], ⟨0, c.length + a.length⟩) := by
  refine ⟨?_, ?_, ?_⟩
  · simp [FileWatcher.Check, NewFileWatcher]
  · simp only [FileWatcher.Check, NewFileWatcher]
    rw [if_neg (by simp)]
    simp [List.drop_left]
  · simp only [FileWatcher.Check]
    rw [if_neg (by simp)]
    simp [List.drop_eq_nil_of_le]

/-- C7 counterexample: a watcher built on an empty file delivers the two
appended bytes 97 98 (offset 2); the file is then truncated to the single
byte 97 (size 1 < offset 2); the next probe resets to position 0 and
delivers 97 again, a byte sequence that is exactly the first byte of what
the earlier probe already delivered — refuting the no-re-delivery part of
the claim. -/
theorem watchfor_c7_cex :
    NewFileWatcher ⟨fun _ => ([] : Bytes), 0⟩ = ⟨0, 0⟩ ∧
    FileWatcher.Check ⟨fun _ => [97, 98], 0⟩ ⟨0, 0⟩
      = Except.ok ([97, 98], ⟨0, 2⟩) ∧
    FileWatcher.Check ⟨fun _ => [97], 0⟩ ⟨0, 2⟩
      = Except.ok ([97], ⟨0, 1⟩) ∧
    ([97] : Bytes) = List.take 1 [97, 98] ∧ ([97] : Bytes) ≠ [] :=
  ⟨rfl, rfl, rfl, rfl, by decide⟩

/-- C7 amended: when the stored offset exceeds the current size, the next
probe resets the read position to 0 and returns, with no error, the
entire current content of the file; previously-delivered bytes are
therefore re-delivered exactly when the truncated file still retains them
(in particular, none are re-delivered when the file was truncated to
empty). -/
theorem watchfor_c7_amended (fs : FS) (fw : FileWatcher)
    (h : (fs.files fw.fileId).length < fw.offset) :
    FileWatcher.Check fs fw
      = Except.ok (fs.files fw.fileId,
          ⟨fw.fileId, (fs.files fw.fileId).length⟩) := by
  simp only [FileWatcher.Check]
  rw [if_pos h]
  simp

/-- Witness for the amended C7: a file of one byte 5 probed at stored
offset 3 resets and returns the whole byte. -/
theorem watchfor_c7_amended_witness :
    FileWatcher.Check ⟨fun _ => [5], 0⟩ ⟨0, 3⟩
      = Except.ok ([5], ⟨0, 1⟩) :=
  watchfor_c7_amended ⟨fun _ => [5], 0⟩ ⟨0, 3⟩ (by decide)

/-- C8 (code bug): identity 0 holds the original content at the watched
path and is fully read (offset 3 = its size); rotation rebinds the path to
identity 1 whose content is 110 101 119.  The next probe still reads the
old handle, returns empty, and leaves the watcher state unchanged — so the
content of the newly created file at the path, which is nonempty, is never
delivered, contradicting the claimed re-open-and-reset behavior (and the
repository test TestFileWatcher_Check_Rotation). -/
theorem watchfor_c8_code_bug :
    NewFileWatcher ⟨fun i => if i = 0 then [111, 108, 100] else [110, 101, 119], 0⟩
      = ⟨0, 3⟩ ∧
    FileWatcher.Check
        ⟨fun i => if i = 0 then [111, 108, 100] else [110, 101, 119], 1⟩ ⟨0, 3⟩
      = Except.ok ([], ⟨0, 3⟩) ∧
    FS.files ⟨fun i => if i = 0 then [111, 108, 100] else [110, 101, 119], 1⟩
        (FS.pathBinding
          ⟨fun i => if i = 0 then [111, 108, 100] else [110, 101, 119], 1⟩)
      = [110, 101, 119] ∧
    ([] : Bytes) ≠ [110, 101, 119] :=
  ⟨rfl, rfl, rfl, by decide⟩

/-- C9: when the content at the handle changes but its size stays at least
the stored offset, the probe does not reset: it returns exactly the bytes
from the old offset through end-of-file and advances the offset to the new
size, so the replacement content lying before the old offset is not
delivered. -/
theorem watchfor_c9 (fs : FS) (fw : FileWatcher)
    (h : fw.offset ≤ (fs.files fw.fileId).length) :
    FileWatcher.Check fs fw
      = Except.ok ((fs.files fw.fileId).drop fw.offset,
          ⟨fw.fileId, (fs.files fw.fileId).length⟩) := by
  simp only [FileWatcher.Check]
  rw [if_neg (by omega)]
  have hlen : fw.offset + ((fs.files fw.fileId).drop fw.offset).length
      = (fs.files fw.fileId).length := by
    simp [List.length_drop]; omega
  rw [hlen]

/-- Witness for C9: content replaced by 1 2 3 with stored offset 1: the
probe returns the suffix from position 1 and moves the offset to 3. -/
theorem watchfor_c9_witness :
    FileWatcher.Check ⟨fun _ => [1, 2, 3], 0⟩ ⟨0, 1⟩
      = Except.ok (List.drop 1 [1, 2, 3], ⟨0, 3⟩) :=
  watchfor_c9 ⟨fun _ => [1, 2, 3], 0⟩ ⟨0, 1⟩ (by decide)

/-- C3: when regex mode is on and the (possibly case-directive-prefixed)
pattern fails to compile, the run terminates on the very first attempt
with FatalError after exactly one Check call, for every maxRetries and
every deadline. -/
theorem watchfor_c3 (compile : RegexCompile) (p : Poller)
    (w : Nat → Bytes × Option String) (deadline : Option ℚ) (interval : ℚ)
    (maxRetries : Int) (backoff : ℚ) (fuel : Nat)
    (hreg : p.regex = true)
    (hbad : compile (if p.ignoreCase then ciDirective ++ p.pattern
        else p.pattern) = none)
    (hfuel : 0 < fuel) :
    Poller.Run compile p w deadline interval maxRetries backoff fuel
      = some ⟨.FatalError, 1, []⟩ := by
  obtain ⟨f, rfl⟩ : ∃ f, fuel = f + 1 := ⟨fuel - 1, by omega⟩
  simp [Poller.Run, Poller.RunAux, Poller.matchOut, hreg, hbad]

/-- Witness for C3: an engine that rejects every pattern, maxRetries 7,
fuel 3: one probe, fatal failure. -/
theorem watchfor_c3_witness :
    Poller.Run (fun _ => none) ⟨[91, 97], false, true, false⟩
        (fun _ => ([2], none)) none 5 7 2 3
      = some ⟨.FatalError, 1, []⟩ :=
  watchfor_c3 (fun _ => none) ⟨[91, 97], false, true, false⟩
    (fun _ => ([2], none)) none 5 7 2 3 rfl rfl (by decide)

/-- C1 (code bug): pattern never matches, maxAttempts 1, a deadline one
million seconds away.  The run returns ExhaustedRetries after exactly one
probe and no waiting — the retry-count ceiling terminated the loop even
though ample time remained, and the outcome is not TimedOut.  For contrast,
the identical run with the ceiling removed (maxRetries 0) is still in
progress after the same number of iterations: the deadline alone would not
have stopped it. -/
theorem watchfor_c1_code_bug :
    Poller.Run (fun _ => none) ⟨[82, 69, 65, 68, 89], false, false, false⟩
        (fun _ => ([110, 111], none)) (some 1000000000000000) 1000000 1 2 5
      = some ⟨.ExhaustedRetries, 1, []⟩ ∧
    Poller.Run (fun _ => none) ⟨[82, 69, 65, 68, 89], false, false, false⟩
        (fun _ => ([110, 111], none)) (some 1000000000000000) 1000000 0 2 5
      = none := by
  refine ⟨rfl, ?_⟩
  norm_num [Poller.Run, Poller.RunAux, Poller.matchOut, bytesContains, leadEq,
    min_def, maxDelay, deadlineHit]

/-- Helper: with a probe stream that never matches and no deadline, the
loop with retry ceiling N runs down the remaining budget and stops with
ExhaustedRetries after exactly N - attempt further Check calls. -/
lemma runAux_never_match (compile : RegexCompile) (p : Poller)
    (w : Nat → Bytes × Option String) (interval : ℚ) (backoff : ℚ) (N : Nat)
    (hm : ∀ k, p.matchOut compile (w k).1 = Except.ok false) :
    ∀ fuel attempt callIdx elapsed, attempt < N → N - attempt ≤ fuel →
    ∃ ds, Poller.RunAux compile p w interval (N : Int) backoff none
        fuel attempt callIdx elapsed
      = some ⟨.ExhaustedRetries, N - attempt, ds⟩ := by
  intro fuel
  induction fuel with
  | zero => intro attempt callIdx elapsed h1 h2; omega
  | succ f ih =>
    intro attempt callIdx elapsed h1 h2
    by_cases hlast : attempt + 1 = N
    · refine ⟨[], ?_⟩
      simp only [Poller.RunAux, hm callIdx]
      rw [if_pos (by constructor <;> omega)]
      have : N - attempt = 1 := by omega
      rw [this]
    · have hlt : attempt + 1 < N := by omega
      obtain ⟨ds, hds⟩ := ih (attempt + 1) (callIdx + 1)
        (elapsed + min (interval * backoff ^ (attempt + 1)) maxDelay)
        hlt (by omega)
      refine ⟨min (interval * backoff ^ (attempt + 1)) maxDelay :: ds, ?_⟩
      simp only [Poller.RunAux, hm callIdx]
      rw [if_neg (by omega)]
      simp only [hds, Option.map_some']
      have : N - (attempt + 1) + 1 = N - attempt := by omega
      rw [this]
      simp [deadlineHit]

/-- C2: with maxRetries N > 0, no deadline, and a state source whose
output never matches the pattern, the run makes exactly N Check calls and
returns the ExhaustedRetries failure. -/
theorem watchfor_c2 (compile : RegexCompile) (p : Poller)
    (w : Nat → Bytes × Option String) (interval : ℚ) (backoff : ℚ)
    (N : Nat) (fuel : Nat)
    (hm : ∀ k, p.matchOut compile (w k).1 = Except.ok false)
    (hN : 0 < N) (hfuel : N ≤ fuel) :
    ∃ res, Poller.Run compile p w none interval (N : Int) backoff fuel
        = some res ∧
      res.outcome = .ExhaustedRetries ∧ res.checkCalls = N ∧
      res.outcome.success = false := by
  obtain ⟨ds, hds⟩ := runAux_never_match compile p w interval backoff N hm
    fuel 0 0 0 hN (by omega)
  refine ⟨⟨.ExhaustedRetries, N - 0, ds⟩, hds, rfl, ?_, rfl⟩
  show N - 0 = N
  omega

/-- Witness for C2: pattern byte 1 never occurs in the constant output
byte 2; with maxRetries 2 the run probes twice and exhausts. -/
theorem watchfor_c2_witness :
    ∃ res, Poller.Run (fun _ => none) ⟨[1], false, false, false⟩
        (fun _ => ([2], none)) none 7 ((2 : Nat) : Int) 2 4 = some res ∧
      res.outcome = .ExhaustedRetries ∧ res.checkCalls = 2 ∧
      res.outcome.success = false :=
  watchfor_c2 (fun _ => none) ⟨[1], false, false, false⟩
    (fun _ => ([2], none)) 7 2 2 4 (fun _ => rfl) (by decide) (by decide)

/-- Helper: every completed wait a terminating run records obeys the
backoff formula: the wait stored at position i of a run started at the
given attempt counter equals min(interval * backoff ^ (attempt + 1 + i),
maxDelay). -/
lemma runAux_delay_formula (compile : RegexCompile) (p : Poller)
    (w : Nat → Bytes × Option String) (interval : ℚ) (maxRetries : Int)
    (backoff : ℚ) (deadline : Option ℚ) :
    ∀ fuel attempt callIdx elapsed res,
      Poller.RunAux compile p w interval maxRetries backoff deadline
          fuel attempt callIdx elapsed = some res →
      ∀ i (hi : i < res.delays.length),
        res.delays.get ⟨i, hi⟩
          = min (interval * backoff ^ (attempt + 1 + i)) maxDelay := by
  intro fuel
  induction fuel with
  | zero => intro attempt callIdx elapsed res h; simp [Poller.RunAux] at h
  | succ f ih =>
    intro attempt callIdx elapsed res h i hi
    simp only [Poller.RunAux] at h
    split at h
    · cases h; simp at hi
    · cases h; simp at hi
    · split at h
      · cases h; simp at hi
      · split at h
        · cases h; simp at hi
        · rw [Option.map_eq_some'] at h
          obtain ⟨r, hr, hfr⟩ := h
          subst hfr
          cases i with
          | zero =>
            show min (interval * backoff ^ (attempt + 1)) maxDelay
              = min (interval * backoff ^ (attempt + 1 + 0)) maxDelay
            rw [Nat.add_zero]
          | succ j =>
            have hj : j < r.delays.length := Nat.lt_of_succ_lt_succ hi
            have hrec := ih (attempt + 1) (callIdx + 1)
              (elapsed + min (interval * backoff ^ (attempt + 1)) maxDelay)
              r hr j hj
            show r.delays.get ⟨j, hj⟩
              = min (interval * backoff ^ (attempt + 1 + (j + 1))) maxDelay
            rw [hrec]
            have : attempt + 1 + 1 + j = attempt + 1 + (j + 1) := by omega
            rw [this]

/-- C5: every attempt n that fails to match without exhausting the budget
is followed by a wait of exactly min(interval * backoff ^ n, maxDelay)
nanoseconds — the n-th recorded delay of any terminating run obeys the
formula and never exceeds the one-hour ceiling. -/
theorem watchfor_c5 (compile : RegexCompile) (p : Poller)
    (w : Nat → Bytes × Option String) (deadline : Option ℚ) (interval : ℚ)
    (maxRetries : Int) (backoff : ℚ) (fuel : Nat) (res : RunResult) (n : Nat)
    (hrun : Poller.Run compile p w deadline interval maxRetries backoff fuel
      = some res)
    (hn : 1 ≤ n) (hi : n - 1 < res.delays.length) :
    res.delays.get? (n - 1) = some (min (interval * backoff ^ n) maxDelay) ∧
    min (interval * backoff ^ n) maxDelay ≤ maxDelay := by
  have hf := runAux_delay_formula compile p w interval maxRetries backoff
    deadline fuel 0 0 0 res hrun (n - 1) hi
  constructor
  · rw [List.get?_eq_get hi, hf]
    have : 0 + 1 + (n - 1) = n := by omega
    rw [this]
  · exact min_le_right _ _

/-- Witness for C5: a two-attempt exhausted run with interval 7 and
backoff 2 records exactly one wait, equal to min(7 * 2 ^ 1, maxDelay). -/
theorem watchfor_c5_witness :
    (RunResult.delays
        ⟨.ExhaustedRetries, 2, [min ((7 : ℚ) * 2 ^ 1) maxDelay]⟩).get? (1 - 1)
      = some (min ((7 : ℚ) * 2 ^ 1) maxDelay) ∧
    min ((7 : ℚ) * 2 ^ 1) maxDelay ≤ maxDelay :=
  watchfor_c5 (fun _ => none) ⟨[1], false, false, false⟩
    (fun _ => ([2], none)) none 7 2 2 2
    ⟨.ExhaustedRetries, 2, [min ((7 : ℚ) * 2 ^ 1) maxDelay]⟩ 1
    (by simp [Poller.Run, Poller.RunAux, Poller.matchOut, bytesContains,
      leadEq, deadlineHit])
    (by decide) (by decide)

/-- C4: a probe whose state source reports an error is still evaluated by
the matcher and does not abort the run: with probe errors on the first two
attempts, no match on the first and a match in the second probe's bytes,
the loop continues past the failed errored probe and terminates with
success on the errored matching probe, after exactly two Check calls. -/
theorem watchfor_c4 (compile : RegexCompile) (p : Poller)
    (w : Nat → Bytes × Option String) (interval : ℚ) (maxRetries : Int)
    (backoff : ℚ) (fuel : Nat) (e0 e1 : String)
    (hw0 : (w 0).2 = some e0) (hw1 : (w 1).2 = some e1)
    (hm0 : p.matchOut compile (w 0).1 = Except.ok false)
    (hm1 : p.matchOut compile (w 1).1 = Except.ok true)
    (hmr : maxRetries ≠ 1) :
    Poller.Run compile p w none interval maxRetries backoff (fuel + 2)
      = some ⟨.Matched, 2, [min (interval * backoff ^ 1) maxDelay]⟩ := by
  simp only [Poller.Run, Poller.RunAux, hm0]
  rw [if_neg (by omega)]
  simp only [Nat.zero_add, Poller.RunAux, hm1]
  simp [deadlineHit]

/-- Witness for C4: both probes report errors; byte 1 is absent from the
first probe and present in the second; maxRetries 2 does not cut the run
short and the second probe succeeds. -/
theorem watchfor_c4_witness :
    Poller.Run (fun _ => none) ⟨[1], false, false, false⟩
        (fun k => if k = 0 then ([2], some "x") else ([1], some "y"))
        none 10 2 3 (1 + 2)
      = some ⟨.Matched, 2, [min ((10 : ℚ) * 3 ^ 1) maxDelay]⟩ :=
  watchfor_c4 (fun _ => none) ⟨[1], false, false, false⟩
    (fun k => if k = 0 then ([2], some "x") else ([1], some "y"))
    10 2 3 1 "x" "y" rfl rfl rfl rfl (by decide)

/-- Helper: when the matcher never errors on the probed outputs, no
terminating run ends in FatalError. -/
lemma runAux_no_fatal (compile : RegexCompile) (p : Poller)
    (w : Nat → Bytes × Option String) (interval : ℚ) (maxRetries : Int)
    (backoff : ℚ) (deadline : Option ℚ)
    (hok : ∀ k, p.matchOut compile (w k).1 ≠ Except.error ()) :
    ∀ fuel attempt callIdx elapsed res,
      Poller.RunAux compile p w interval maxRetries backoff deadline
          fuel attempt callIdx elapsed = some res →
      res.outcome ≠ .FatalError := by
  intro fuel
  induction fuel with
  | zero => intro attempt callIdx elapsed res h; simp [Poller.RunAux] at h
  | succ f ih =>
    intro attempt callIdx elapsed res h
    simp only [Poller.RunAux] at h
    split at h
    · next e heq =>
      cases e
      exact absurd heq (hok callIdx)
    · cases h; simp [RunResult.outcome]
    · split at h
      · cases h; simp [RunResult.outcome]
      · split at h
        · cases h; simp [RunResult.outcome]
        · rw [Option.map_eq_some'] at h
          obtain ⟨r, hr, hfr⟩ := h
          subst hfr
          exact ih (attempt + 1) (callIdx + 1) _ r hr

/-- C10: with regex mode disabled the matcher never returns an error on
any candidate bytes (it is pure substring containment under either case
setting), so no terminating literal-mode run can end in FatalError. -/
theorem watchfor_c10 (compile : RegexCompile) (p : Poller)
    (w : Nat → Bytes × Option String) (deadline : Option ℚ) (interval : ℚ)
    (maxRetries : Int) (backoff : ℚ) (fuel : Nat) (res : RunResult)
    (out : Bytes)
    (hreg : p.regex = false)
    (hrun : Poller.Run compile p w deadline interval maxRetries backoff fuel
      = some res) :
    p.matchOut compile out ≠ Except.error () ∧
    res.outcome ≠ .FatalError := by
  have hok : ∀ o : Bytes, p.matchOut compile o ≠ Except.error () := by
    intro o
    simp only [Poller.matchOut, hreg, Bool.false_eq_true, if_false]
    split <;> simp
  exact ⟨hok out,
    runAux_no_fatal compile p w interval maxRetries backoff deadline
      (fun k => hok _) fuel 0 0 0 res hrun⟩

/-- Witness for C10: a literal-mode run that exhausts after one probe; its
matcher answers without error on the probed bytes and its outcome is not
FatalError. -/
theorem watchfor_c10_witness :
    Poller.matchOut (fun _ => none) ⟨[1], false, false, false⟩ [2]
        ≠ Except.error () ∧
    RunResult.outcome ⟨.ExhaustedRetries, 1, []⟩ ≠ .FatalError :=
  watchfor_c10 (fun _ => none) ⟨[1], false, false, false⟩
    (fun _ => ([2], none)) none 1 1 1 1 ⟨.ExhaustedRetries, 1, []⟩ [2]
    rfl rfl

end Watchfor
